import Mathlib

/-!
# Verification of the xlf-translator translation-and-context pipeline

Shallow embedding of the two request handlers of the repository
(`processTranslation` in `api/process-xlf.js` and
`generateTranslationContext` in `api/generate-context.js`) together with
the pure helpers they call: the text preprocessor, the fallback
synthesizer, the content-pattern analyzer and the keyword-weighted
domain detector.

JavaScript strings are modelled as Lean `String`/`List Char`; the
ECMAScript `\s` character class and `String.prototype.trim` are modelled
by an explicit whitespace predicate; JavaScript objects keyed by
stringified indices are modelled as association lists built in insertion
order; thrown errors are modelled with `Except`.  The outbound call to
the external model is the only effectful step; both handlers take its
outcome as an explicit `Except` parameter and the theorems quantify over
it (or fix it to a failure, which is the case the claims are about).
-/

set_option maxRecDepth 100000

namespace XlfTranslator

/-! ## JavaScript primitives: whitespace, trim, word characters -/

/-- The ECMAScript `\s` class (WhiteSpace ∪ LineTerminator): space, tab,
LF, VT, FF, CR, NBSP, Ogham space, the U+2000–U+200A range, line and
paragraph separators, NNBSP, MMSP, ideographic space and the BOM. -/
def isJsWs (c : Char) : Bool :=
  c == ' ' || c == '\t' || c == '\n' || c == '\r' ||
  c == '\u000b' || c == '\u000c' ||
  c == ' ' || c == ' ' ||
  (' ' ≤ c && c ≤ ' ') ||
  c == ' ' || c == ' ' || c == ' ' ||
  c == ' ' || c == '　' || c == '﻿'

/-- One left-to-right pass of `replace(/\s+/g, ' ')`: `prevWs` records
whether the previous input character was whitespace, i.e. whether we are
inside a run that has already emitted its single `' '`. -/
def collapseWsAux : List Char → Bool → List Char
  | [], _ => []
  | c :: cs, prevWs =>
    if isJsWs c then
      if prevWs then collapseWsAux cs true
      else ' ' :: collapseWsAux cs true
    else c :: collapseWsAux cs false

/-- `replace(/\s+/g, ' ')`: every maximal run of whitespace becomes a
single space. -/
def collapseWs (l : List Char) : List Char :=
  collapseWsAux l false

/-- Remove leading JavaScript whitespace. -/
def trimLeftJs (l : List Char) : List Char :=
  l.dropWhile isJsWs

/-- Remove trailing JavaScript whitespace. -/
def trimRightJs : List Char → List Char
  | [] => []
  | c :: cs =>
    let r := trimRightJs cs
    if r.isEmpty then (if isJsWs c then [] else [c]) else c :: r

/-- `String.prototype.trim`. -/
def jsTrim (s : String) : String :=
  String.mk (trimRightJs (trimLeftJs s.data))

/-- Truthiness of an optional JavaScript string: `undefined` and `""`
are falsy. -/
def jsTruthy : Option String → Bool
  | none => false
  | some s => !s.isEmpty

/-! ## Text Preprocessor (`preprocessTextForTranslation`) -/

/-- `preprocessTextForTranslation(text, index)` from `api/process-xlf.js`:
collapse whitespace runs to single spaces, trim, return `''` for empty
results and the cleaned text otherwise (the `length < 3` branch also
returns the cleaned text unchanged). -/
def preprocessTextForTranslation (text : String) : String :=
  let cleaned := String.mk (trimRightJs (trimLeftJs (collapseWs text.data)))
  if cleaned.length = 0 then ""
  else if cleaned.length < 3 then cleaned
  else cleaned

/-! ## Fallback Synthesizer (`generateContextualFallbacks`) -/

/-- Does `pat` occur as a contiguous run in the character list? -/
def containsSubAux (pat : List Char) : List Char → Bool
  | [] => pat.isEmpty
  | c :: cs => pat.isPrefixOf (c :: cs) || containsSubAux pat cs

/-- `String.prototype.includes`. -/
def containsSub (s pat : String) : Bool :=
  containsSubAux pat.data s.data

/-- `String.prototype.toUpperCase` (on the ASCII range). -/
def jsToUpper (s : String) : String :=
  String.mk (s.data.map Char.toUpper)

/-- `String.prototype.toLowerCase` (on the ASCII range). -/
def jsToLower (s : String) : String :=
  String.mk (s.data.map Char.toLower)

/-- One placeholder string `[<token>_<index>]`. -/
def mkFallback (token : String) (index : Nat) : String :=
  "[" ++ token ++ "_" ++ toString index ++ "]"

/-- The placeholder chosen for one non-empty text in
`generateContextualFallbacks`: the default `<TARGETLANG>_TRANSLATION`
token unless the (truthy) contextual-guidance string, lower-cased,
contains `occupational`/`prl`, `technical` or `educational`, checked in
that order. -/
def fallbackForText (targetLang : String) (translationContext : Option String)
    (index : Nat) : String :=
  let base := mkFallback (jsToUpper targetLang ++ "_TRANSLATION") index
  match translationContext with
  | none => base
  | some ctx =>
    if ctx.isEmpty then base
    else if containsSub (jsToLower ctx) "occupational" || containsSub (jsToLower ctx) "prl" then
      mkFallback ("WORKPLACE_SAFETY_" ++ jsToUpper targetLang) index
    else if containsSub (jsToLower ctx) "technical" then
      mkFallback ("TECHNICAL_" ++ jsToUpper targetLang) index
    else if containsSub (jsToLower ctx) "educational" then
      mkFallback ("EDUCATIONAL_" ++ jsToUpper targetLang) index
    else base

/-- `generateContextualFallbacks(texts, targetLang, translationContext)`
from `api/process-xlf.js`: the `fallbacks` object, as the association
list of (stringified index, value) pairs in insertion order.  A text
that is empty or trims to empty gets `''`; every other text gets a
placeholder from `fallbackForText`. -/
def generateContextualFallbacks (texts : List String) (targetLang : String)
    (translationContext : Option String) : List (String × String) :=
  texts.enum.map fun p =>
    (toString p.1,
      if p.2.isEmpty || (jsTrim p.2).length = 0 then ""
      else fallbackForText targetLang translationContext p.1)

/-! ## Translation Orchestrator (`processTranslation`) -/

/-- A JSON value that can appear as an element of `chunkTexts`.  Only
strings survive preprocessing; the constructors for the other primitive
values witness that validation never inspects element types. -/
inductive JVal where
  | str (s : String)
  | num (n : Int)
  | bool (b : Bool)
  | null
deriving DecidableEq

/-- A thrown JavaScript error: the explicit `throw new Error(...)` of
request validation, or a `TypeError` from calling a string method on a
non-string. -/
inductive JsErr where
  | validationError (msg : String)
  | typeError (msg : String)
deriving DecidableEq

instance {ε α : Type} [DecidableEq ε] [DecidableEq α] : DecidableEq (Except ε α) := fun a b =>
  match a, b with
  | .ok x, .ok y => if h : x = y then .isTrue (by simp [h]) else .isFalse (by simp [h])
  | .error x, .error y => if h : x = y then .isTrue (by simp [h]) else .isFalse (by simp [h])
  | .ok _, .error _ => .isFalse (by simp)
  | .error _, .ok _ => .isFalse (by simp)

/-- Preprocessing one element of `chunkTexts`:
`preprocessTextForTranslation` immediately calls `text.substring` and
`text.replace`, so any non-string element raises a `TypeError`. -/
def preprocessChunkText : JVal → Except JsErr String
  | .str s => .ok (preprocessTextForTranslation s)
  | _ => .error (.typeError "text.substring is not a function")

/-- `chunkTexts.map(preprocessTextForTranslation)`: left to right, the
first thrown `TypeError` aborts the whole map. -/
def preprocessAll : List JVal → Except JsErr (List String)
  | [] => .ok []
  | v :: vs => do
    let s ← preprocessChunkText v
    let rest ← preprocessAll vs
    .ok (s :: rest)

/-- The JSON body of a translation request.  `none` for `chunkTexts`
models a missing or non-array field; `none` for `targetLang` models an
absent field (`some ""` is present but falsy). -/
structure TranslationRequest where
  chunkTexts : Option (List JVal)
  chunkIndex : Nat := 0
  totalChunks : Nat := 1
  sourceLang : String := "en"
  targetLang : Option String
  translationContext : Option String := none

/-- The JSON body returned by `processTranslation` (the wall-clock
fields `processingTimeMs` and `timestamp` are omitted). -/
structure TranslationResult where
  success : Bool
  chunkIndex : Nat
  translations : List (String × String)
  textsProcessed : Nat
  realTranslations : Nat
  chunkComplete : Bool
  contextualTranslation : Bool
  sourceLang : String
  targetLang : String
  chunkInfo : String
deriving DecidableEq

/-- `processTranslation(requestData)` from `api/process-xlf.js`.
`claudeResult` is the outcome of the awaited `translateWithClaude` call
(the object it resolves with, or the error it rejects with); the
`try`/`catch` substitutes `generateContextualFallbacks` on failure.
Preprocessing happens before the `try`, so its `TypeError` propagates. -/
def processTranslation (req : TranslationRequest)
    (claudeResult : Except String (List (String × String))) :
    Except JsErr TranslationResult :=
  match req.chunkTexts with
  | none => .error (.validationError "Missing or invalid chunkTexts array")
  | some chunkTexts =>
    if !jsTruthy req.targetLang then
      .error (.validationError "Target language is required")
    else
      match req.targetLang with
      | none => .error (.validationError "Target language is required")
      | some targetLang =>
        if chunkTexts.length = 0 then
          .error (.validationError "chunkTexts array cannot be empty")
        else
          match preprocessAll chunkTexts with
          | .error e => .error e
          | .ok processedTexts =>
            let translations :=
              match claudeResult with
              | .ok t => t
              | .error _ =>
                generateContextualFallbacks processedTexts targetLang
                  req.translationContext
            .ok {
              success := true
              chunkIndex := req.chunkIndex
              translations := translations
              textsProcessed := processedTexts.length
              realTranslations := translations.length
              chunkComplete := true
              contextualTranslation := jsTruthy req.translationContext
              sourceLang := req.sourceLang
              targetLang := targetLang
              chunkInfo := toString (req.chunkIndex + 1) ++ "/" ++ toString req.totalChunks }

/-! ## Whole-word matching (`new RegExp(`\b${keyword}\b`, 'gi')`) -/

/-- The ECMAScript `\w` class. -/
def isWordChar (c : Char) : Bool :=
  ('a' ≤ c && c ≤ 'z') || ('A' ≤ c && c ≤ 'Z') || ('0' ≤ c && c ≤ '9') || c == '_'

/-- `isWordChar` lifted to the virtual characters at the edges of the
text (absent characters count as non-word). -/
def isWordOpt : Option Char → Bool
  | none => false
  | some c => isWordChar c

/-- An ECMAScript `\b` assertion between two (possibly absent)
characters. -/
def wordBoundary (a b : Option Char) : Bool :=
  isWordOpt a != isWordOpt b

/-- Does `\b<pat>\b` match at the start of `text`, where `prev` is the
character just before `text` in the full subject string? -/
def matchesWordAt (pat : List Char) (prev : Option Char) (text : List Char) : Bool :=
  pat.isPrefixOf text && wordBoundary prev pat.head? &&
    wordBoundary pat.getLast? (text.drop pat.length).head?

/-- The number of matches found by `content.match(/\b<pat>\b/g)`: scan
left to right, and on a match resume after it (a global regex resumes at
`lastIndex`, advancing at least one character).  `fuel` bounds the scan
length structurally; it never runs out when it starts at the length of
the text, since every step consumes at least one character. -/
def countWordMatchesAux (pat : List Char) : Nat → Option Char → List Char → Nat
  | 0, _, _ => 0
  | _ + 1, _, [] => 0
  | fuel + 1, prev, c :: cs =>
    if matchesWordAt pat prev (c :: cs) then
      1 + countWordMatchesAux pat fuel pat.getLast? ((c :: cs).drop (pat.length.max 1))
    else
      countWordMatchesAux pat fuel (some c) cs

/-- Whole-word, case-insensitive match count of one keyword over the
(lower-cased) content. -/
def countWordMatches (pat : String) (text : List Char) : Nat :=
  countWordMatchesAux pat.data text.length none text

/-- Is some word of the alternation `\b(w₁|w₂|…)\b` present? -/
def hasAnyWord (words : List String) (text : List Char) : Bool :=
  words.any fun w => countWordMatches w text > 0

/-! ## Content Classifier (`detectContentDomain`, `analyzeContentPatterns`) -/

/-- The four domains of `detectContentDomain`, in the enumeration order
of the `domains` object literal. -/
inductive Domain where
  | prl
  | technical
  | educational
  | corporate
deriving DecidableEq

/-- Position of a domain in `Object.keys(domains)`. -/
def domIndex : Domain → Nat
  | .prl => 0
  | .technical => 1
  | .educational => 2
  | .corporate => 3

/-- The `name` field of each domain. -/
def domainName : Domain → String
  | .prl => "Occupational Health & Safety (PRL)"
  | .technical => "Technical & IT Training"
  | .educational => "Educational & E-Learning"
  | .corporate => "Corporate Training"

/-- The `keywords` list of each domain, verbatim from
`api/generate-context.js`. -/
def domainKeywords : Domain → List String
  | .prl =>
    ["prl", "prevención", "riesgos laborales", "ergonomía", "postura", "asiento", "respaldo",
     "estrés laboral", "seguridad", "salud laboral", "workplace safety", "occupational health",
     "ergonomic", "posture", "safety guidelines", "health risks", "prevention"]
  | .technical =>
    ["api", "system", "software", "configuration", "install", "database", "server", "code",
     "technical", "setup", "data", "process", "function", "network", "interface", "development"]
  | .educational =>
    ["lesson", "course", "learning", "training", "module", "chapter", "quiz", "assessment",
     "knowledge", "skill", "student", "learn", "teach", "education", "instruction"]
  | .corporate =>
    ["company", "organization", "team", "department", "employee", "business", "corporate",
     "workplace", "professional", "management", "process", "procedure", "policy"]

/-- `sampleTexts.join(' ').toLowerCase()`, as a character list. -/
def allContentOf (sampleTexts : List String) : List Char :=
  (jsToLower (String.intercalate " " sampleTexts)).data

/-- Accumulated keyword weight of one domain: the keywords are
lower-case literals and the content is lower-cased, so the `i` flag
reduces to exact matching. -/
def domainWeight (sampleTexts : List String) (d : Domain) : Nat :=
  (domainKeywords d).foldl
    (fun acc k => acc + countWordMatches k (allContentOf sampleTexts)) 0

/-- `Object.keys(domains).reduce((a, b) => domains[a].weight >
domains[b].weight ? a : b)`: a fold over the enumeration order starting
from the first key. -/
def dominantDomain (w : Domain → Nat) : Domain :=
  List.foldl (fun a b => if w a > w b then a else b) Domain.prl
    [Domain.technical, Domain.educational, Domain.corporate]

/-- `Math.round(p / q)` for non-negative `p / q`: round half away from
zero, i.e. `⌊p/q + 1/2⌋`. -/
def jsRoundDiv (p q : Nat) : Nat :=
  (2 * p + q) / (2 * q)

/-- The object returned by `detectContentDomain` (the `weights` field is
recoverable as `domainWeight sampleTexts`). -/
structure DomainAnalysis where
  primary : Domain
  description : String
  confidence : Nat
deriving DecidableEq

/-- `detectContentDomain(sampleTexts)` from `api/generate-context.js`. -/
def detectContentDomain (sampleTexts : List String) : DomainAnalysis :=
  let w := domainWeight sampleTexts
  let dominant := dominantDomain w
  let maxWeight := w dominant
  let confidence :=
    if maxWeight > 0 then min (jsRoundDiv (maxWeight * 100) sampleTexts.length) 95
    else 50
  { primary := dominant, description := domainName dominant, confidence := confidence }

/-- The object built by `analyzeContentPatterns`. -/
structure ContentAnalysis where
  contentType : String
  recommendedTone : String
  targetAudience : String
  specialConsiderations : List String
deriving DecidableEq

/-- Keyword group of the UI/interactive-elements check. -/
def uiWords : List String :=
  ["click", "button", "navigate", "select", "choose", "continue", "next", "previous",
   "start", "complete"]

/-- Keyword group of the technical-content check. -/
def techWords : List String :=
  ["api", "system", "configuration", "database", "server", "technical", "setup", "install"]

/-- Keyword group of the educational-content check. -/
def eduWords : List String :=
  ["lesson", "course", "learning", "training", "module", "chapter", "quiz", "student", "learn"]

/-- Keyword group of the corporate-content check. -/
def corpWords : List String :=
  ["company", "organization", "employee", "business", "corporate", "workplace", "team"]

/-- `analyzeContentPatterns(sampleTexts)` from `api/generate-context.js`:
four independent presence checks; later checks overwrite the scalar
fields, every matching check appends to `specialConsiderations`. -/
def analyzeContentPatterns (sampleTexts : List String) : ContentAnalysis :=
  let allContent := allContentOf sampleTexts
  let a0 : ContentAnalysis :=
    { contentType := "Educational/Training Content"
      recommendedTone := "Professional"
      targetAudience := "Learners"
      specialConsiderations := [] }
  let a1 :=
    if hasAnyWord uiWords allContent then
      { a0 with specialConsiderations :=
          a0.specialConsiderations ++ ["UI elements", "interaction clarity"] }
    else a0
  let a2 :=
    if hasAnyWord techWords allContent then
      { a1 with
          recommendedTone := "Technical"
          targetAudience := "Technical Users"
          specialConsiderations := a1.specialConsiderations ++ ["technical accuracy"] }
    else a1
  let a3 :=
    if hasAnyWord eduWords allContent then
      { a2 with
          contentType := "E-Learning Platform"
          specialConsiderations := a2.specialConsiderations ++ ["learning flow"] }
    else a2
  if hasAnyWord corpWords allContent then
    { a3 with
        contentType := "Corporate Training"
        targetAudience := "Employees"
        recommendedTone := "Professional" }
  else a3

/-- `getTerminologyApproach(domain, targetLang)`: the lookup table is
total on the closed domain set, so the generic default is unreachable. -/
def getTerminologyApproach (domain : Domain) (targetLang : String) : String :=
  match domain with
  | .prl =>
    "Professional " ++ targetLang ++
      " workplace safety terminology, technical precision for ergonomic and health concepts"
  | .technical =>
    "Technical " ++ targetLang ++
      " terminology with accuracy for system/software concepts, maintain English technical terms where standard"
  | .educational =>
    "Clear, accessible " ++ targetLang ++
      " with educational clarity, avoid overly technical jargon unless necessary"
  | .corporate =>
    "Professional business " ++ targetLang ++
      " terminology, formal register appropriate for corporate environment"

/-! ## Context Generator (`generateEnhancedLocalContext`,
`generateTranslationContext`) -/

/-- The `contextualPrompt` accumulated by
`generateEnhancedLocalContext(sampleTexts, userContext, targetLang)` in
`api/generate-context.js`, before the final `.trim()`: the `+=` chain of
the labelled lines.  Template interpolation of the
`specialConsiderations` array uses the JavaScript array-to-string
conversion, which joins with `","` and no space. -/
def localContextBody (sampleTexts : List String)
    (userContext targetLang : String) : String :=
  let analysis := analyzeContentPatterns sampleTexts
  let domainAnalysis := detectContentDomain sampleTexts
  let p1 :=
    "**CONTENT TYPE**: " ++ analysis.contentType ++ "\n" ++
    "**DOMAIN**: " ++ domainAnalysis.description ++ "\n" ++
    "**TERMINOLOGY APPROACH**: " ++
      getTerminologyApproach domainAnalysis.primary targetLang ++ "\n" ++
    "**TONE**: " ++ analysis.recommendedTone ++ "\n" ++
    "**AUDIENCE**: " ++ analysis.targetAudience ++ "\n" ++
    "**SPECIAL CONSIDERATIONS**: " ++
      String.intercalate "," analysis.specialConsiderations ++ "\n"
  let p2 :=
    if !userContext.isEmpty && (jsTrim userContext).length > 0 then
      p1 ++ "**USER REQUIREMENTS**: " ++ jsTrim userContext ++ "\n"
    else p1
  p2 ++
    "**QUALITY STANDARDS**: Maintain XML structure integrity, preserve spacing, ensure " ++
    targetLang ++ " linguistic accuracy\n"

/-- `generateEnhancedLocalContext`: the accumulated block, trimmed on
return. -/
def generateEnhancedLocalContext (sampleTexts : List String)
    (userContext targetLang : String) : String :=
  jsTrim (localContextBody sampleTexts userContext targetLang)

/-- The JSON body of a context request.  `none` for `sampleTexts` models
a present but non-array field; all other fields carry their destructuring
defaults. -/
structure ContextRequest where
  sampleTexts : Option (List String)
  userContext : String := ""
  targetLang : String := "es"
  contentType : String := "educational"

/-- The JSON body returned by `generateTranslationContext` (the
wall-clock fields `processingTimeMs` and `timestamp` are omitted). -/
structure ContextResult where
  success : Bool
  translationContext : String
  sampleTextsAnalyzed : Nat
  contextLength : Nat
  userContextProvided : Bool
  targetLang : String
  contentType : String
  generationMethod : String
deriving DecidableEq

/-- `generateTranslationContext(requestData)` from
`api/generate-context.js`.  `claudeResult` is the outcome of the awaited
`generateContextWithClaude` call (its already-trimmed reply, or the
error it rejects with); the `catch` substitutes
`generateEnhancedLocalContext`. -/
def generateTranslationContext (req : ContextRequest)
    (claudeResult : Except String String) : Except JsErr ContextResult :=
  match req.sampleTexts with
  | none => .error (.validationError "Missing or invalid sampleTexts array")
  | some sampleTexts =>
    if sampleTexts.length = 0 then
      .error (.validationError "sampleTexts array cannot be empty")
    else
      let translationContext :=
        match claudeResult with
        | .ok t => t
        | .error _ =>
          generateEnhancedLocalContext sampleTexts req.userContext req.targetLang
      .ok {
        success := true
        translationContext := translationContext
        sampleTextsAnalyzed := sampleTexts.length
        contextLength := translationContext.length
        userContextProvided := !req.userContext.isEmpty
        targetLang := req.targetLang
        contentType := req.contentType
        generationMethod :=
          if containsSub translationContext "**CONTENT TYPE**" then "claude" else "local" }

/-! ## Claim-side predicates

Bool-valued statements of the properties the specification claims,
worded from the spec, to be related to the source-translated functions
above. -/

/-- No two consecutive characters are both whitespace: "no internal run
of more than one consecutive whitespace character". -/
def noAdjWs : List Char → Bool
  | [] => true
  | [_] => true
  | a :: b :: rest => !(isJsWs a && isJsWs b) && noAdjWs (b :: rest)

/-- The first character, if any, is not whitespace. -/
def headNotWs : List Char → Bool
  | [] => true
  | c :: _ => !isJsWs c

/-- The last character, if any, is not whitespace. -/
def lastNotWs (l : List Char) : Bool :=
  match l.getLast? with
  | none => true
  | some c => !isJsWs c

/-- Every whitespace character is a plain space.  (An output of
`replace(/\s+/g, ' ')` satisfies this; it is what makes the collapse
pass idempotent.) -/
def allWsSpace (l : List Char) : Bool :=
  l.all fun c => !isJsWs c || c == ' '

/-- The spec's fallback placeholder pattern `[<TOKEN>_<index>]` for the
entry with key `key`: an opening bracket, and a `_<key>]` tail. -/
def isFallbackPlaceholder (key value : String) : Bool :=
  value.data.head? == some '[' && ("_" ++ key ++ "]").data.isSuffixOf value.data

/-- The `<TOKEN>` of §4.6 / claim C5, worded from the spec: default
`<TARGETLANG>_TRANSLATION`, replaced via the first matching keyword of
the lower-cased contextual guidance in the priority order
occupational/prl → technical → educational. -/
def specFallbackToken (targetLang : String) (guidance : Option String) : String :=
  let g := jsToLower (guidance.getD "")
  if containsSub g "occupational" || containsSub g "prl" then
    "WORKPLACE_SAFETY_" ++ jsToUpper targetLang
  else if containsSub g "technical" then
    "TECHNICAL_" ++ jsToUpper targetLang
  else if containsSub g "educational" then
    "EDUCATIONAL_" ++ jsToUpper targetLang
  else jsToUpper targetLang ++ "_TRANSLATION"

/-- The Fallback Synthesizer contract as claim C5 words it: `""` maps to
`""`, every other input at index `i` maps to `[<TOKEN>_<i>]`. -/
def specFallbacks (texts : List String) (targetLang : String)
    (guidance : Option String) : List (String × String) :=
  texts.enum.map fun p =>
    (toString p.1,
      if p.2 = "" then "" else mkFallback (specFallbackToken targetLang guidance) p.1)

/-- The greatest accumulated keyword weight over the four domains, as
claim C4 words it. -/
def maxDomainWeight (sampleTexts : List String) : Nat :=
  max (domainWeight sampleTexts .prl)
    (max (domainWeight sampleTexts .technical)
      (max (domainWeight sampleTexts .educational)
        (domainWeight sampleTexts .corporate)))

/-- The validation step of `processTranslation` (its first three
checks), as a predicate. -/
def passesValidation (req : TranslationRequest) : Bool :=
  (match req.chunkTexts with
   | none => false
   | some l => l.length != 0) && jsTruthy req.targetLang

/-- The translation mapping `processTranslation` ends up with: the
remote object on success, the synthesized fallbacks on failure. -/
def claudeOrFallback (cr : Except String (List (String × String)))
    (processed : List String) (tl : String) (ctx : Option String) :
    List (String × String) :=
  match cr with
  | .ok t => t
  | .error _ => generateContextualFallbacks processed tl ctx

/-! ## Lemmas: whitespace normalization -/

theorem headNotWs_collapseWsAux_true (l : List Char) :
    headNotWs (collapseWsAux l true) = true := by
  induction l with
  | nil => rfl
  | cons c cs ih =>
    by_cases h : isJsWs c
    · simpa [collapseWsAux, h] using ih
    · simp [collapseWsAux, h, headNotWs]

theorem noAdjWs_tail {c : Char} {cs : List Char} (h : noAdjWs (c :: cs) = true) :
    noAdjWs cs = true := by
  cases cs with
  | nil => rfl
  | cons b bs =>
    simp only [noAdjWs, Bool.and_eq_true] at h
    exact h.2

theorem noAdjWs_cons_of_headNotWs {x : Char} {t : List Char}
    (h1 : headNotWs t = true) (h2 : noAdjWs t = true) : noAdjWs (x :: t) = true := by
  cases t with
  | nil => rfl
  | cons y ys =>
    simp only [headNotWs, Bool.not_eq_true'] at h1
    simp [noAdjWs, h1, h2]

theorem noAdjWs_cons_left {x : Char} {t : List Char}
    (h : isJsWs x = false) (h2 : noAdjWs t = true) : noAdjWs (x :: t) = true := by
  cases t with
  | nil => rfl
  | cons y ys => simp [noAdjWs, h, h2]

theorem noAdjWs_collapseWsAux (l : List Char) (b : Bool) :
    noAdjWs (collapseWsAux l b) = true := by
  induction l generalizing b with
  | nil => rfl
  | cons c cs ih =>
    by_cases h : isJsWs c
    · cases b
      · simp only [collapseWsAux, h, if_true, Bool.false_eq_true, if_false]
        exact noAdjWs_cons_of_headNotWs (headNotWs_collapseWsAux_true cs) (ih true)
      · simpa [collapseWsAux, h] using ih true
    · simp only [collapseWsAux, h, Bool.false_eq_true, if_false]
      exact noAdjWs_cons_left (by simp [h]) (ih false)

theorem allWsSpace_collapseWsAux (l : List Char) (b : Bool) :
    allWsSpace (collapseWsAux l b) = true := by
  induction l generalizing b with
  | nil => rfl
  | cons c cs ih =>
    by_cases h : isJsWs c
    · cases b
      · simpa [collapseWsAux, h, allWsSpace] using ih true
      · simpa [collapseWsAux, h] using ih true
    · simpa [collapseWsAux, h, allWsSpace] using ih false

theorem headNotWs_trimLeftJs (l : List Char) : headNotWs (trimLeftJs l) = true := by
  induction l with
  | nil => rfl
  | cons c cs ih =>
    by_cases h : isJsWs c
    · simpa [trimLeftJs, List.dropWhile_cons, h] using ih
    · simp [trimLeftJs, List.dropWhile_cons, h, headNotWs]

theorem noAdjWs_trimLeftJs {l : List Char} (h : noAdjWs l = true) :
    noAdjWs (trimLeftJs l) = true := by
  induction l with
  | nil => exact h
  | cons c cs ih =>
    by_cases hc : isJsWs c
    · simpa [trimLeftJs, List.dropWhile_cons, hc] using ih (noAdjWs_tail h)
    · simpa [trimLeftJs, List.dropWhile_cons, hc] using h

theorem allWsSpace_trimLeftJs {l : List Char} (h : allWsSpace l = true) :
    allWsSpace (trimLeftJs l) = true := by
  induction l with
  | nil => exact h
  | cons c cs ih =>
    simp only [allWsSpace, List.all_cons, Bool.and_eq_true] at h
    by_cases hc : isJsWs c
    · simpa [trimLeftJs, List.dropWhile_cons, hc] using ih h.2
    · simpa [trimLeftJs, List.dropWhile_cons, hc, allWsSpace] using h

theorem trimRightJs_cons (c : Char) (cs : List Char) :
    trimRightJs (c :: cs) =
      if (trimRightJs cs).isEmpty then (if isJsWs c then [] else [c])
      else c :: trimRightJs cs := rfl

theorem trimRightJs_head? (l : List Char) (h : trimRightJs l ≠ []) :
    (trimRightJs l).head? = l.head? := by
  cases l with
  | nil => simp [trimRightJs] at h
  | cons c cs =>
    by_cases hr : (trimRightJs cs).isEmpty
    · by_cases hc : isJsWs c
      · simp [trimRightJs, hr, hc] at h
      · simp [trimRightJs, hr, hc]
    · simp [trimRightJs, hr]

theorem lastNotWs_trimRightJs (l : List Char) : lastNotWs (trimRightJs l) = true := by
  induction l with
  | nil => rfl
  | cons c cs ih =>
    by_cases hr : (trimRightJs cs).isEmpty
    · by_cases hc : isJsWs c
      · simp [trimRightJs, hr, hc, lastNotWs]
      · simp [trimRightJs, hr, hc, lastNotWs]
    · have hne : trimRightJs cs ≠ [] := by
        simpa [List.isEmpty_iff] using hr
      obtain ⟨y, r', hy⟩ : ∃ y r', trimRightJs cs = y :: r' := by
        cases hx : trimRightJs cs with
        | nil => exact absurd hx hne
        | cons a as => exact ⟨a, as, rfl⟩
      have := ih
      simp only [trimRightJs, hr, Bool.false_eq_true, if_false]
      simpa [lastNotWs, hy, List.getLast?_cons_cons] using (hy ▸ this)

theorem noAdjWs_trimRightJs {l : List Char} (h : noAdjWs l = true) :
    noAdjWs (trimRightJs l) = true := by
  induction l with
  | nil => exact h
  | cons c cs ih =>
    by_cases hr : (trimRightJs cs).isEmpty
    · by_cases hc : isJsWs c
      · simp [trimRightJs, hr, hc, noAdjWs]
      · simp [trimRightJs, hr, hc, noAdjWs]
    · have hne : trimRightJs cs ≠ [] := by
        simpa [List.isEmpty_iff] using hr
      have hih := ih (noAdjWs_tail h)
      have hhd := trimRightJs_head? cs hne
      simp only [trimRightJs, hr, Bool.false_eq_true, if_false]
      cases hx : trimRightJs cs with
      | nil => exact absurd hx hne
      | cons y r' =>
        cases cs with
        | nil => simp [trimRightJs] at hx
        | cons z zs =>
          rw [hx] at hhd hih
          simp only [List.head?_cons, Option.some.injEq] at hhd
          subst hhd
          simp only [noAdjWs, Bool.and_eq_true]
          refine ⟨?_, hih⟩
          simp only [noAdjWs, Bool.and_eq_true] at h
          exact h.1

theorem allWsSpace_trimRightJs {l : List Char} (h : allWsSpace l = true) :
    allWsSpace (trimRightJs l) = true := by
  induction l with
  | nil => exact h
  | cons c cs ih =>
    simp only [allWsSpace, List.all_cons, Bool.and_eq_true] at h
    by_cases hr : (trimRightJs cs).isEmpty
    · by_cases hc : isJsWs c
      · simp [trimRightJs, hr, hc, allWsSpace]
      · simp [trimRightJs, hr, hc, allWsSpace, h.1]
    · simpa [trimRightJs, hr, allWsSpace, h.1] using ih h.2

theorem headNotWs_trimRightJs {l : List Char} (h : headNotWs l = true) :
    headNotWs (trimRightJs l) = true := by
  cases l with
  | nil => exact h
  | cons c cs =>
    by_cases hr : (trimRightJs cs).isEmpty
    · by_cases hc : isJsWs c
      · simp [trimRightJs, hr, hc, headNotWs]
      · simp [trimRightJs, hr, hc, headNotWs]
    · simpa [trimRightJs, hr, headNotWs] using h

theorem collapseWsAux_true_eq_false {l : List Char} (h : headNotWs l = true) :
    collapseWsAux l true = collapseWsAux l false := by
  cases l with
  | nil => rfl
  | cons c cs =>
    have hc : isJsWs c = false := by simpa [headNotWs] using h
    simp [collapseWsAux, hc]

theorem collapseWsAux_eq_self {l : List Char}
    (h1 : noAdjWs l = true) (h2 : allWsSpace l = true) :
    collapseWsAux l false = l := by
  induction l with
  | nil => rfl
  | cons c cs ih =>
    have h2' : allWsSpace cs = true := by
      simp only [allWsSpace, List.all_cons, Bool.and_eq_true] at h2
      exact h2.2
    by_cases hc : isJsWs c
    · have hsp : c = ' ' := by
        simp only [allWsSpace, List.all_cons, Bool.and_eq_true, Bool.or_eq_true,
          Bool.not_eq_true', beq_iff_eq] at h2
        rcases h2.1 with h | h
        · rw [hc] at h; cases h
        · exact h
      have hhd : headNotWs cs = true := by
        cases cs with
        | nil => rfl
        | cons y ys =>
          simp only [noAdjWs, Bool.and_eq_true, Bool.not_eq_true', Bool.and_eq_false_iff] at h1
          rcases h1.1 with h | h
          · rw [hc] at h; cases h
          · simpa [headNotWs] using h
      calc collapseWsAux (c :: cs) false
          = ' ' :: collapseWsAux cs true := by simp [collapseWsAux, hc]
        _ = ' ' :: collapseWsAux cs false := by rw [collapseWsAux_true_eq_false hhd]
        _ = ' ' :: cs := by rw [ih (noAdjWs_tail h1) h2']
        _ = c :: cs := by rw [hsp]
    · simp only [collapseWsAux, hc, Bool.false_eq_true, if_false]
      rw [ih (noAdjWs_tail h1) h2']

theorem trimLeftJs_eq_self {l : List Char} (h : headNotWs l = true) :
    trimLeftJs l = l := by
  cases l with
  | nil => rfl
  | cons c cs =>
    have hc : isJsWs c = false := by simpa [headNotWs] using h
    simp [trimLeftJs, List.dropWhile_cons, hc]

theorem trimRightJs_eq_self {l : List Char} (h : lastNotWs l = true) :
    trimRightJs l = l := by
  induction l with
  | nil => rfl
  | cons c cs ih =>
    cases cs with
    | nil =>
      have hc : isJsWs c = false := by simpa [lastNotWs] using h
      simp [trimRightJs, hc]
    | cons y ys =>
      have h' : lastNotWs (y :: ys) = true := by
        simpa [lastNotWs, List.getLast?_cons_cons] using h
      have heq : trimRightJs (y :: ys) = y :: ys := ih h'
      rw [trimRightJs_cons, heq]
      simp

/-! ## Lemmas: the preprocessor -/

theorem preprocess_eq (text : String) :
    preprocessTextForTranslation text =
      String.mk (trimRightJs (trimLeftJs (collapseWs text.data))) := by
  simp only [preprocessTextForTranslation]
  split_ifs with h1 h2
  · have : trimRightJs (trimLeftJs (collapseWs text.data)) = [] :=
      List.length_eq_zero.mp h1
    rw [this]
  · rfl
  · rfl

theorem preprocess_headNotWs (s : String) :
    headNotWs (preprocessTextForTranslation s).data = true := by
  rw [preprocess_eq]
  exact headNotWs_trimRightJs (headNotWs_trimLeftJs _)

theorem preprocess_lastNotWs (s : String) :
    lastNotWs (preprocessTextForTranslation s).data = true := by
  rw [preprocess_eq]
  exact lastNotWs_trimRightJs _

theorem preprocess_noAdjWs (s : String) :
    noAdjWs (preprocessTextForTranslation s).data = true := by
  rw [preprocess_eq]
  exact noAdjWs_trimRightJs (noAdjWs_trimLeftJs (noAdjWs_collapseWsAux _ _))

theorem preprocess_allWsSpace (s : String) :
    allWsSpace (preprocessTextForTranslation s).data = true := by
  rw [preprocess_eq]
  exact allWsSpace_trimRightJs (allWsSpace_trimLeftJs (allWsSpace_collapseWsAux _ _))

theorem collapseWsAux_all_ws {l : List Char} (b : Bool) (h : l.all isJsWs = true) :
    (collapseWsAux l b).all isJsWs = true := by
  induction l generalizing b with
  | nil => rfl
  | cons c cs ih =>
    simp only [List.all_cons, Bool.and_eq_true] at h
    cases b
    · simp only [collapseWsAux, h.1, if_true, Bool.false_eq_true, if_false,
        List.all_cons, Bool.and_eq_true]
      exact ⟨by decide, ih true h.2⟩
    · simp only [collapseWsAux, h.1, if_true]
      exact ih true h.2

theorem preprocess_wsOnly (s : String) (h : s.data.all isJsWs = true) :
    preprocessTextForTranslation s = "" := by
  rw [preprocess_eq]
  have h1 : trimLeftJs (collapseWs s.data) = [] := by
    rw [trimLeftJs, List.dropWhile_eq_nil_iff]
    intro x hx
    have := collapseWsAux_all_ws (l := s.data) false h
    simpa using List.all_eq_true.mp this x hx
  rw [h1]
  rfl

theorem jsTrim_preprocess (s : String) :
    jsTrim (preprocessTextForTranslation s) = preprocessTextForTranslation s := by
  unfold jsTrim
  rw [trimLeftJs_eq_self (preprocess_headNotWs s),
    trimRightJs_eq_self (preprocess_lastNotWs s)]

/-! ## Claim C7: preprocessor normalization -/

/-- Claim C7: for every input string, `preprocessTextForTranslation`
returns a string with no leading or trailing whitespace and no internal
run of more than one consecutive whitespace character; for every empty
or whitespace-only input string it returns the empty string. -/
theorem claimC7 (s : String) :
    headNotWs (preprocessTextForTranslation s).data = true ∧
    lastNotWs (preprocessTextForTranslation s).data = true ∧
    noAdjWs (preprocessTextForTranslation s).data = true ∧
    (s.data.all isJsWs = true → preprocessTextForTranslation s = "") :=
  ⟨preprocess_headNotWs s, preprocess_lastNotWs s, preprocess_noAdjWs s,
    preprocess_wsOnly s⟩

/-- Witness for C7 at the whitespace-only input `" \t "`. -/
theorem claimC7_witness :
    (" \t " : String).data.all isJsWs = true ∧
    preprocessTextForTranslation " \t " = "" :=
  ⟨by decide, (claimC7 " \t ").2.2.2 (by decide)⟩

/-! ## Claim C8: preprocessor idempotence -/

/-- Claim C8: `preprocessTextForTranslation` is idempotent — applying it
to its own output yields the same output. -/
theorem claimC8 (s : String) :
    preprocessTextForTranslation (preprocessTextForTranslation s) =
      preprocessTextForTranslation s := by
  conv_lhs => rw [preprocess_eq]
  have hcollapse :
      collapseWs (preprocessTextForTranslation s).data =
        (preprocessTextForTranslation s).data :=
    collapseWsAux_eq_self (preprocess_noAdjWs s) (preprocess_allWsSpace s)
  rw [hcollapse, trimLeftJs_eq_self (preprocess_headNotWs s),
    trimRightJs_eq_self (preprocess_lastNotWs s)]

/-! ## Lemmas: the translation orchestrator -/

theorem preprocessAll_map_str (texts : List String) :
    preprocessAll (texts.map JVal.str) =
      .ok (texts.map preprocessTextForTranslation) := by
  induction texts with
  | nil => rfl
  | cons t ts ih =>
    simp only [List.map_cons, preprocessAll, preprocessChunkText, ih]
    rfl

theorem fallbackForText_eq_spec (tl : String) (ctx : Option String) (i : Nat) :
    fallbackForText tl ctx i = mkFallback (specFallbackToken tl ctx) i := by
  have h1 : containsSub (jsToLower "") "occupational" = false := by decide
  have h2 : containsSub (jsToLower "") "prl" = false := by decide
  have h3 : containsSub (jsToLower "") "technical" = false := by decide
  have h4 : containsSub (jsToLower "") "educational" = false := by decide
  cases ctx with
  | none =>
    simp only [fallbackForText, specFallbackToken, Option.getD, h1, h2, h3, h4,
      Bool.or_self, Bool.false_eq_true, if_false]
  | some c =>
    by_cases hc : c.isEmpty
    · have : c = "" := (String.isEmpty_iff c).mp hc
      subst this
      simp only [fallbackForText, specFallbackToken, Option.getD, h1, h2, h3, h4,
        Bool.or_self, Bool.false_eq_true, if_false, if_true]
      split <;> rfl
    · simp only [fallbackForText, specFallbackToken, Option.getD, hc,
        Bool.false_eq_true, if_false]
      split_ifs <;> rfl

theorem isFallbackPlaceholder_mkFallback (tok : String) (i : Nat) :
    isFallbackPlaceholder (toString i) (mkFallback tok i) = true := by
  have hbr : ("[" : String).data = ['['] := rfl
  simp only [isFallbackPlaceholder, mkFallback, String.data_append, hbr,
    Bool.and_eq_true, beq_iff_eq]
  constructor
  · simp
  · rw [List.isSuffixOf_iff_suffix]
    simp only [List.append_assoc, List.cons_append, List.nil_append]
    exact (List.suffix_append _ _).trans (List.suffix_cons _ _)

theorem processTranslation_valid (texts : List String) (tl sl : String)
    (ctx : Option String) (ci tc : Nat)
    (cr : Except String (List (String × String)))
    (h1 : texts ≠ []) (h2 : tl ≠ "") :
    processTranslation
        { chunkTexts := some (texts.map JVal.str), chunkIndex := ci,
          totalChunks := tc, sourceLang := sl, targetLang := some tl,
          translationContext := ctx } cr =
      .ok {
        success := true
        chunkIndex := ci
        translations := claudeOrFallback cr (texts.map preprocessTextForTranslation) tl ctx
        textsProcessed := texts.length
        realTranslations :=
          (claudeOrFallback cr (texts.map preprocessTextForTranslation) tl ctx).length
        chunkComplete := true
        contextualTranslation := jsTruthy ctx
        sourceLang := sl
        targetLang := tl
        chunkInfo := toString (ci + 1) ++ "/" ++ toString tc } := by
  have htl : tl.isEmpty = false := by
    cases h : tl.isEmpty
    · rfl
    · exact absurd ((String.isEmpty_iff tl).mp h) h2
  have hpre := preprocessAll_map_str texts
  cases cr with
  | ok t =>
    simp only [processTranslation, jsTruthy, htl, Bool.not_false, Bool.not_true,
      Bool.true_eq_false, Bool.false_eq_true, if_false, List.length_map,
      List.length_eq_zero, h1, if_neg h1, hpre, claudeOrFallback]
  | error e =>
    simp only [processTranslation, jsTruthy, htl, Bool.not_false, Bool.not_true,
      Bool.true_eq_false, Bool.false_eq_true, if_false, List.length_map,
      List.length_eq_zero, h1, if_neg h1, hpre, claudeOrFallback]

theorem generateContextualFallbacks_preprocessed (texts0 : List String)
    (tl : String) (ctx : Option String) :
    generateContextualFallbacks (texts0.map preprocessTextForTranslation) tl ctx =
      specFallbacks (texts0.map preprocessTextForTranslation) tl ctx := by
  unfold generateContextualFallbacks specFallbacks
  apply List.map_congr_left
  intro p hp
  obtain ⟨i, t⟩ := p
  have ht : t ∈ texts0.map preprocessTextForTranslation := by
    have := List.mem_map_of_mem Prod.snd hp
    rwa [List.enum_map_snd] at this
  obtain ⟨t0, _, rfl⟩ := List.mem_map.mp ht
  rw [jsTrim_preprocess]
  by_cases h : preprocessTextForTranslation t0 = ""
  · simp [h]
  · have h1 : (preprocessTextForTranslation t0).isEmpty = false := by
      cases heq : (preprocessTextForTranslation t0).isEmpty
      · rfl
      · exact absurd ((String.isEmpty_iff _).mp heq) h
    have h2 : ¬((preprocessTextForTranslation t0).length = 0) := fun hl =>
      h (String.ext (List.length_eq_zero.mp hl))
    simp [h1, h2, h, fallbackForText_eq_spec]

theorem forall₂_enumFrom_map {α β : Type} (R : α → β → Prop) (f : Nat × α → β)
    (h : ∀ i a, R a (f (i, a))) :
    ∀ (l : List α) (n : Nat), List.Forall₂ R l ((l.enumFrom n).map f)
  | [], _ => List.Forall₂.nil
  | a :: as, n =>
    List.Forall₂.cons (h n a) (forall₂_enumFrom_map R f h as (n + 1))

/-! ## Claim C1: fallback mapping shape on remote failure -/

/-- Claim C1 as stated is false: the request
`{chunkTexts: ["Hello world", ""], targetLang: "fr"}` is valid
(non-empty array, target language present) and the remote call fails,
yet the returned entry at key `"1"` is `""`, which does not match the
fallback placeholder pattern `[TOKEN_1]`. -/
theorem claimC1_counterexample :
    (processTranslation
        { chunkTexts := some [.str "Hello world", .str ""], targetLang := some "fr" }
        (.error "ECONNREFUSED")).map
      (fun r => r.translations.map fun p => (p.1, p.2, isFallbackPlaceholder p.1 p.2)) =
    .ok [("0", "[FR_TRANSLATION_0]", true), ("1", "", false)] := by decide

/-- Claim C1 amended: for every valid translation request whose chunk
texts are strings, when the external model call fails the returned
mapping has exactly `chunkTexts.length` entries with keys `"0"`..`"n-1"`,
and each value matches the fallback placeholder pattern `[TOKEN_index]`
except that inputs which preprocess to the empty string map to `""`. -/
theorem claimC1_amended (texts : List String) (tl sl : String) (ctx : Option String)
    (ci tc : Nat) (err : String) (h1 : texts ≠ []) (h2 : tl ≠ "") :
    ∃ r, processTranslation
        { chunkTexts := some (texts.map JVal.str), chunkIndex := ci, totalChunks := tc,
          sourceLang := sl, targetLang := some tl, translationContext := ctx }
        (.error err) = .ok r ∧
      r.translations.length = texts.length ∧
      r.translations.map Prod.fst = (List.range texts.length).map (fun i => toString i) ∧
      List.Forall₂
        (fun t p => if preprocessTextForTranslation t = ""
          then (p : String × String).2 = ""
          else isFallbackPlaceholder p.1 p.2 = true)
        texts r.translations := by
  refine ⟨_, processTranslation_valid texts tl sl ctx ci tc (.error err) h1 h2, ?_, ?_, ?_⟩
  · simp [claudeOrFallback, generateContextualFallbacks, List.enum_length]
  · show (generateContextualFallbacks (texts.map preprocessTextForTranslation) tl ctx).map
        Prod.fst = _
    unfold generateContextualFallbacks
    rw [List.map_map]
    have : (Prod.fst ∘ fun p : Nat × String =>
        (toString p.1,
          if p.2.isEmpty || (jsTrim p.2).length = 0 then ""
          else fallbackForText tl ctx p.1)) =
        (fun n : Nat => toString n) ∘ Prod.fst := rfl
    rw [this, ← List.map_map, List.enum_map_fst, List.length_map]
  · show List.Forall₂ _ texts
      (generateContextualFallbacks (texts.map preprocessTextForTranslation) tl ctx)
    rw [generateContextualFallbacks_preprocessed]
    unfold specFallbacks
    have hmain :
        List.Forall₂
          (fun t p => if t = "" then (p : String × String).2 = ""
            else isFallbackPlaceholder p.1 p.2 = true)
          (texts.map preprocessTextForTranslation)
          (((texts.map preprocessTextForTranslation).enumFrom 0).map fun p =>
            (toString p.1,
              if p.2 = "" then "" else mkFallback (specFallbackToken tl ctx) p.1)) := by
      apply forall₂_enumFrom_map
      intro i a
      by_cases h : a = ""
      · simp [h]
      · simp only [h, if_false]
        exact isFallbackPlaceholder_mkFallback _ i
    rw [List.forall₂_map_left_iff] at hmain
    exact hmain

/-- Witness for C1 (amended) at the request of end-to-end scenario 1. -/
theorem claimC1_witness :
    (["Hello world", ""] : List String) ≠ [] ∧ ("fr" : String) ≠ "" ∧
    ∃ r, processTranslation
        { chunkTexts := some ((["Hello world", ""] : List String).map JVal.str),
          chunkIndex := 0, totalChunks := 1, sourceLang := "en",
          targetLang := some "fr", translationContext := none }
        (.error "ECONNREFUSED") = .ok r ∧
      r.translations.length = (["Hello world", ""] : List String).length ∧
      r.translations.map Prod.fst =
        (List.range (["Hello world", ""] : List String).length).map (fun i => toString i) ∧
      List.Forall₂
        (fun t p => if preprocessTextForTranslation t = ""
          then (p : String × String).2 = ""
          else isFallbackPlaceholder p.1 p.2 = true)
        ["Hello world", ""] r.translations :=
  ⟨by decide, by decide,
    claimC1_amended ["Hello world", ""] "fr" "en" none 0 1 "ECONNREFUSED"
      (by decide) (by decide)⟩

/-! ## Claim C2: success flag after validation -/

/-- Claim C2: every result `processTranslation` actually returns has
`success = true`, and for every request that passes validation with
string chunk texts a result is returned — with `success = true` — both
when the remote translation succeeds and when it fails; translation
failure is never surfaced as a failed response. -/
theorem claimC2 :
    (∀ (req : TranslationRequest) (cr : Except String (List (String × String)))
        (r : TranslationResult), processTranslation req cr = .ok r → r.success = true) ∧
    (∀ (texts : List String) (tl sl : String) (ctx : Option String) (ci tc : Nat)
        (cr : Except String (List (String × String))), texts ≠ [] → tl ≠ "" →
      (processTranslation
          { chunkTexts := some (texts.map JVal.str), chunkIndex := ci, totalChunks := tc,
            sourceLang := sl, targetLang := some tl, translationContext := ctx }
          cr).map TranslationResult.success = .ok true) := by
  constructor
  · intro req cr r h
    unfold processTranslation at h
    repeat' split at h
    all_goals cases h
    all_goals rfl
  · intro texts tl sl ctx ci tc cr h1 h2
    rw [processTranslation_valid texts tl sl ctx ci tc cr h1 h2]
    rfl

/-- Witness for C2 at a concrete valid request with a failing remote
call. -/
theorem claimC2_witness :
    (processTranslation
        { chunkTexts := some ([("Hello world" : String)].map JVal.str),
          targetLang := some "fr" }
        (.error "ECONNREFUSED")).map TranslationResult.success = .ok true :=
  claimC2.2 ["Hello world"] "fr" "en" none 0 1 (.error "ECONNREFUSED")
    (by decide) (by decide)

/-! ## Claim C5: fallback synthesizer contract -/

/-- Claim C5: on preprocessed inputs (the Fallback Synthesizer's stated
precondition), `generateContextualFallbacks` maps the empty string to
`""` and every other text at index `i` to `[<TOKEN>_i]` with the token
chosen by the spec's priority order — and the end-to-end request
`{chunkTexts: ["Hello world", ""], targetLang: "fr"}` with a failing
external model yields `{"0": "[FR_TRANSLATION_0]", "1": ""}`. -/
theorem claimC5 (texts0 : List String) (tl : String) (ctx : Option String) :
    generateContextualFallbacks (texts0.map preprocessTextForTranslation) tl ctx =
      specFallbacks (texts0.map preprocessTextForTranslation) tl ctx ∧
    (processTranslation
        { chunkTexts := some [.str "Hello world", .str ""], targetLang := some "fr" }
        (.error "ECONNREFUSED")).map TranslationResult.translations =
      .ok [("0", "[FR_TRANSLATION_0]"), ("1", "")] :=
  ⟨generateContextualFallbacks_preprocessed texts0 tl ctx, by decide⟩

/-! ## Claim C10: unvalidated element types escape the handler -/

/-- Claim C10: the request `{chunkTexts: [null], targetLang: "fr"}`
passes validation, yet preprocessing raises a `TypeError` — not a
`ValidationError` — before the `try`/`catch` around the remote call, so
`processTranslation` propagates the error for every remote outcome
instead of producing a fallback result. -/
theorem claimC10 :
    passesValidation
        { chunkTexts := some [JVal.null], targetLang := some "fr" } = true ∧
    (∀ cr : Except String (List (String × String)),
      processTranslation { chunkTexts := some [JVal.null], targetLang := some "fr" } cr =
        .error (.typeError "text.substring is not a function")) ∧
    (∀ msg : String,
      (JsErr.typeError "text.substring is not a function" ==
        JsErr.validationError msg) = false) :=
  ⟨by decide, fun cr => rfl, fun msg => rfl⟩

/-! ## Lemmas: domain detection -/

theorem dominantDomain_spec (w : Domain → Nat) :
    (∀ d, w d ≤ w (dominantDomain w)) ∧
    (∀ d, domIndex (dominantDomain w) < domIndex d → w d < w (dominantDomain w)) := by
  unfold dominantDomain
  simp only [List.foldl_cons, List.foldl_nil]
  split_ifs <;>
    refine ⟨fun d => ?_, fun d => ?_⟩ <;>
    cases d <;>
    first
      | omega
      | (simp only [domIndex]; omega)

theorem domainWeight_dominant_eq_max (samples : List String) :
    domainWeight samples (dominantDomain (domainWeight samples)) =
      maxDomainWeight samples := by
  obtain ⟨hle, -⟩ := dominantDomain_spec (domainWeight samples)
  have h1 := hle .prl
  have h2 := hle .technical
  have h3 := hle .educational
  have h4 := hle .corporate
  unfold maxDomainWeight
  cases hdom : dominantDomain (domainWeight samples) <;>
    rw [hdom] at h1 h2 h3 h4 <;>
    omega

/-! ## Claim C3: domain tie-breaking -/

/-- Claim C3 as stated is false: for the sample list `["zzz"]` every
domain has keyword weight zero — a four-way tie — yet the selected
domain is `corporate`, the last of the tied domains in enumeration
order, not the first (`prl`). -/
theorem claimC3_counterexample :
    domainWeight ["zzz"] .prl = 0 ∧
    domainWeight ["zzz"] .technical = 0 ∧
    domainWeight ["zzz"] .educational = 0 ∧
    domainWeight ["zzz"] .corporate = 0 ∧
    (detectContentDomain ["zzz"]).primary = Domain.corporate ∧
    (Domain.corporate == Domain.prl) = false := by decide

/-- Claim C3 amended: the selected domain always has maximal weight, and
every domain strictly after it in the enumeration order prl, technical,
educational, corporate has strictly smaller weight — so when two or more
domains tie for the greatest weight the selected domain is the LAST of
the tied domains in enumeration order; in particular, with every weight
zero the selected domain is `corporate` and the confidence defaults
to 50. -/
theorem claimC3_amended (samples : List String) :
    (∀ d, domainWeight samples d ≤
      domainWeight samples (detectContentDomain samples).primary) ∧
    (∀ d, domIndex (detectContentDomain samples).primary < domIndex d →
      domainWeight samples d <
        domainWeight samples (detectContentDomain samples).primary) ∧
    (detectContentDomain ["zzz"]).primary = Domain.corporate ∧
    (detectContentDomain ["zzz"]).confidence = 50 := by
  have h := dominantDomain_spec (domainWeight samples)
  have hp : (detectContentDomain samples).primary =
      dominantDomain (domainWeight samples) := rfl
  rw [hp]
  exact ⟨h.1, h.2, by decide, by decide⟩

/-- Witness for C3 (amended) at a sample list where a later domain is
strictly dominated: `prl` wins with weight 5, so the strictly-after
domain `corporate` has strictly smaller weight. -/
theorem claimC3_witness :
    domIndex (detectContentDomain ["ergonomía", "ergonomía", "ergonomía",
      "ergonomía", "ergonomía", "x", "x", "x"]).primary < domIndex Domain.corporate ∧
    domainWeight ["ergonomía", "ergonomía", "ergonomía", "ergonomía",
        "ergonomía", "x", "x", "x"] Domain.corporate <
      domainWeight ["ergonomía", "ergonomía", "ergonomía", "ergonomía",
        "ergonomía", "x", "x", "x"]
        (detectContentDomain ["ergonomía", "ergonomía", "ergonomía",
          "ergonomía", "ergonomía", "x", "x", "x"]).primary :=
  ⟨by decide,
    (claimC3_amended ["ergonomía", "ergonomía", "ergonomía", "ergonomía",
      "ergonomía", "x", "x", "x"]).2.1 Domain.corporate (by decide)⟩

/-! ## Claim C4: confidence formula -/

/-- Claim C4: the reported confidence is
`min(round(maxWeight / sampleTexts.length * 100), 95)` when the greatest
accumulated domain weight is positive and `50` otherwise; and for a
sample list whose concatenated text contains `ergonomía` five times (and
no other domain keyword) over eight samples, the selected domain is
`prl` with confidence `min(round(5/8*100), 95) = 63`. -/
theorem claimC4 (samples : List String) :
    ((detectContentDomain samples).confidence =
      if 0 < maxDomainWeight samples
      then min (jsRoundDiv (maxDomainWeight samples * 100) samples.length) 95
      else 50) ∧
    (detectContentDomain ["ergonomía", "ergonomía", "ergonomía", "ergonomía",
      "ergonomía", "x", "x", "x"]).primary = Domain.prl ∧
    (detectContentDomain ["ergonomía", "ergonomía", "ergonomía", "ergonomía",
      "ergonomía", "x", "x", "x"]).confidence = min (jsRoundDiv (5 * 100) 8) 95 ∧
    min (jsRoundDiv (5 * 100) 8) 95 = 63 := by
  refine ⟨?_, by decide, by decide, by decide⟩
  show (if 0 < domainWeight samples (dominantDomain (domainWeight samples))
      then min (jsRoundDiv
        (domainWeight samples (dominantDomain (domainWeight samples)) * 100)
        samples.length) 95
      else 50) = _
  rw [domainWeight_dominant_eq_max]

/-! ## Lemmas: the local context block always carries its marker -/

theorem trimRightJs_append_ws (l : List Char) {c : Char} (h : isJsWs c = true) :
    trimRightJs (l ++ [c]) = trimRightJs l := by
  induction l with
  | nil => simp [trimRightJs, h]
  | cons a as ih => rw [List.cons_append, trimRightJs_cons, ih, ← trimRightJs_cons]

theorem containsSubAux_of_prefix {pat l : List Char}
    (h : pat.isPrefixOf l = true) : containsSubAux pat l = true := by
  cases l with
  | nil =>
    cases pat with
    | nil => rfl
    | cons a as => simp [List.isPrefixOf] at h
  | cons c cs => simp [containsSubAux, h]

theorem marker_of_split (x : String) :
    containsSub (jsTrim ("**CONTENT TYPE**: " ++ x ++ " linguistic accuracy\n"))
      "**CONTENT TYPE**" = true := by
  have e1 : ("**CONTENT TYPE**: " : String).data =
      "**CONTENT TYPE**".data ++ [':', ' '] := by decide
  have e2 : (" linguistic accuracy\n" : String).data =
      (" linguistic accurac".data ++ ['y']) ++ ['\n'] := by decide
  have e3 : ("**CONTENT TYPE**" : String).data =
      '*' :: "*CONTENT TYPE**".data := by decide
  unfold containsSub jsTrim
  rw [String.data_append, String.data_append, e1, e2]
  have hshape :
      ("**CONTENT TYPE**".data ++ [':', ' ']) ++ x.data ++
          ((" linguistic accurac".data ++ ['y']) ++ ['\n']) =
        ("**CONTENT TYPE**".data ++
          ([':', ' '] ++ ((x.data ++ " linguistic accurac".data) ++ ['y']))) ++ ['\n'] := by
    simp [List.append_assoc]
  rw [hshape]
  set Y := "**CONTENT TYPE**".data ++
    ([':', ' '] ++ ((x.data ++ " linguistic accurac".data) ++ ['y'])) with hY
  have hleft : trimLeftJs (Y ++ ['\n']) = Y ++ ['\n'] := by
    apply trimLeftJs_eq_self
    rw [hY, e3]
    exact (by decide : (!isJsWs '*') = true)
  have hlast : lastNotWs Y = true := by
    rw [hY]
    unfold lastNotWs
    rw [show "**CONTENT TYPE**".data ++
          ([':', ' '] ++ ((x.data ++ " linguistic accurac".data) ++ ['y'])) =
        ("**CONTENT TYPE**".data ++
          ([':', ' '] ++ (x.data ++ " linguistic accurac".data))) ++ ['y'] by
      simp [List.append_assoc]]
    rw [List.getLast?_append_of_ne_nil _ (by simp)]
    decide
  rw [hleft, trimRightJs_append_ws Y (by decide), trimRightJs_eq_self hlast]
  apply containsSubAux_of_prefix
  rw [ List.isPrefixOf_iff_prefix, hY]
  exact List.prefix_append _ _

theorem localContextBody_split (samples : List String) (uc tl : String) :
    ∃ x : String, localContextBody samples uc tl =
      "**CONTENT TYPE**: " ++ x ++ " linguistic accuracy\n" := by
  unfold localContextBody
  split_ifs with h
  · refine ⟨(analyzeContentPatterns samples).contentType ++ "\n" ++ "**DOMAIN**: " ++
      (detectContentDomain samples).description ++ "\n" ++ "**TERMINOLOGY APPROACH**: " ++
      getTerminologyApproach (detectContentDomain samples).primary tl ++ "\n" ++
      "**TONE**: " ++ (analyzeContentPatterns samples).recommendedTone ++ "\n" ++
      "**AUDIENCE**: " ++ (analyzeContentPatterns samples).targetAudience ++ "\n" ++
      "**SPECIAL CONSIDERATIONS**: " ++
        String.intercalate "," (analyzeContentPatterns samples).specialConsiderations ++
      "\n" ++ "**USER REQUIREMENTS**: " ++ jsTrim uc ++ "\n" ++
      "**QUALITY STANDARDS**: Maintain XML structure integrity, preserve spacing, ensure " ++
      tl, ?_⟩
    apply String.ext
    simp [List.append_assoc]
  · refine ⟨(analyzeContentPatterns samples).contentType ++ "\n" ++ "**DOMAIN**: " ++
      (detectContentDomain samples).description ++ "\n" ++ "**TERMINOLOGY APPROACH**: " ++
      getTerminologyApproach (detectContentDomain samples).primary tl ++ "\n" ++
      "**TONE**: " ++ (analyzeContentPatterns samples).recommendedTone ++ "\n" ++
      "**AUDIENCE**: " ++ (analyzeContentPatterns samples).targetAudience ++ "\n" ++
      "**SPECIAL CONSIDERATIONS**: " ++
        String.intercalate "," (analyzeContentPatterns samples).specialConsiderations ++
      "\n" ++
      "**QUALITY STANDARDS**: Maintain XML structure integrity, preserve spacing, ensure " ++
      tl, ?_⟩
    apply String.ext
    simp [List.append_assoc]

theorem localContext_contains_marker (samples : List String) (uc tl : String) :
    containsSub (generateEnhancedLocalContext samples uc tl) "**CONTENT TYPE**" = true := by
  obtain ⟨x, hx⟩ := localContextBody_split samples uc tl
  unfold generateEnhancedLocalContext
  rw [hx]
  exact marker_of_split x

/-! ## Claim C9: the "local" tag is unreachable on the fallback path -/

/-- Claim C9: for every valid context request whose external model call
fails, the locally generated block begins with the `**CONTENT TYPE**`
marker the `generationMethod` check looks for, so the metadata reports
`"claude"` and the `"local"` tag is unreachable on the fallback path. -/
theorem claimC9 (samples : List String) (uc tl ct err : String) (h : samples ≠ []) :
    (generateTranslationContext
        { sampleTexts := some samples, userContext := uc, targetLang := tl,
          contentType := ct } (.error err)).map
      ContextResult.generationMethod = .ok "claude" := by
  have hlen : ¬(samples.length = 0) := fun hl => h (List.length_eq_zero.mp hl)
  simp only [generateTranslationContext, if_neg hlen,
    localContext_contains_marker, if_true, Except.map]

/-- Witness for C9 at a concrete valid request with a failing remote
call. -/
theorem claimC9_witness :
    (generateTranslationContext
        { sampleTexts := some ["Click continue"], userContext := "",
          targetLang := "es", contentType := "educational" }
        (.error "ECONNREFUSED")).map ContextResult.generationMethod = .ok "claude" :=
  claimC9 ["Click continue"] "" "es" "educational" "ECONNREFUSED" (by decide)

/-! ## Claim C6: the special-considerations scenario -/

/-- Claim C6 as stated is false: for the context request
`{sampleTexts: ["Click continue to proceed", "Click continue to proceed"],
targetLang: "de"}` with a failing external model, the returned block does
contain `**CONTENT TYPE**`, but the claimed substring
`**SPECIAL CONSIDERATIONS**: UI elements, interaction clarity` does not
occur: the array is interpolated with JavaScript's comma separator and
no space. -/
theorem claimC6_counterexample :
    (generateTranslationContext
        { sampleTexts := some ["Click continue to proceed", "Click continue to proceed"],
          userContext := "", targetLang := "de", contentType := "educational" }
        (.error "ECONNREFUSED")).map
      (fun r => (containsSub r.translationContext "**CONTENT TYPE**",
        containsSub r.translationContext
          "**SPECIAL CONSIDERATIONS**: UI elements, interaction clarity")) =
    .ok (true, false) := by decide

/-- Claim C6 amended: the same request yields a block containing
`**CONTENT TYPE**` and
`**SPECIAL CONSIDERATIONS**: UI elements,interaction clarity` — the
considerations in first-detected order, joined by a comma with no
space. -/
theorem claimC6_amended :
    (generateTranslationContext
        { sampleTexts := some ["Click continue to proceed", "Click continue to proceed"],
          userContext := "", targetLang := "de", contentType := "educational" }
        (.error "ECONNREFUSED")).map
      (fun r => (containsSub r.translationContext "**CONTENT TYPE**",
        containsSub r.translationContext
          "**SPECIAL CONSIDERATIONS**: UI elements,interaction clarity")) =
    .ok (true, true) := by decide

end XlfTranslator
